import Mathlib

/-!
Shallow embedding of `src/main.py` (a minimal FastAPI joke service backed by
SQLite) and, where the spec mentions a second service absent from the sources,
a model built from the spec's words.

The SQLite `jokes` table is modelled as a list of rows in insertion order.
`INTEGER PRIMARY KEY AUTOINCREMENT` means a freshly inserted row gets an id
strictly larger than every id already used; since the app never deletes rows,
this is `max id + 1` (1 on an empty table).  The column `external_id INTEGER
UNIQUE` follows SQL semantics: `NULL` values never conflict with each other,
so `INSERT OR IGNORE` only ignores a row whose non-NULL `external_id` is
already present.
-/

namespace JokeApi

/-- A row of the `jokes` table created by `init_db`:
`id INTEGER PRIMARY KEY AUTOINCREMENT, external_id INTEGER UNIQUE,
type TEXT, setup TEXT NOT NULL, punchline TEXT NOT NULL,
created_at TEXT NOT NULL`. -/
structure JokeRow where
  id : Nat
  external_id : Option Int
  type : Option String
  setup : String
  punchline : String
  created_at : String
deriving DecidableEq, Repr

/-- The `jokes` table, as the list of its rows in insertion (id-ascending) order. -/
abbrev DB := List JokeRow

/-- The JSON payload of one upstream `/random_joke` response, as read by
`fetch_and_store` via `data.get("id")`, `data.get("setup")`,
`data.get("punchline")`, `data.get("type")` (each key may be absent). -/
structure FetchedJoke where
  id : Option Int
  type : Option String
  setup : Option String
  punchline : Option String
deriving DecidableEq, Repr

/-- Outcome of one call to `fetch_random_joke`: a parsed payload, or an
exception (`raise_for_status` on an error HTTP status, or a transport
failure). -/
inductive FetchResult where
  | ok (joke : FetchedJoke)
  | err
deriving DecidableEq, Repr

/-- Next id handed out by `INTEGER PRIMARY KEY AUTOINCREMENT` on an
insert-only table: one more than the largest id present (1 when empty). -/
def freshId (db : DB) : Nat := (db.map (·.id)).foldr max 0 + 1

/-- Does the table already hold a row with this (non-NULL) `external_id`? -/
def hasExtId (db : DB) (e : Int) : Bool := db.any fun r => r.external_id == some e

/-- One `INSERT OR IGNORE INTO jokes (external_id, type, setup, punchline,
created_at) VALUES (?,?,?,?,?)` with the values `fetch_and_store` extracts
from the payload (`setup`/`punchline` default to `""` via `or ""`).
Returns the new table and, when the row was inserted (`cur.rowcount`),
`cur.lastrowid`.  A `NULL` `external_id` never violates the UNIQUE
constraint, so such a row is always inserted. -/
def insertJoke (db : DB) (j : FetchedJoke) (now : String) : DB × Option Nat :=
  let newRow : JokeRow :=
    { id := freshId db
      external_id := j.id
      type := j.type
      setup := j.setup.getD ""
      punchline := j.punchline.getD ""
      created_at := now }
  match j.id with
  | some e => if hasExtId db e then (db, none) else (db ++ [newRow], some newRow.id)
  | none => (db ++ [newRow], some newRow.id)

/-- State threaded through the `for _ in range(count)` loop of
`fetch_and_store`: the table as modified so far, the accumulated
`stored_ids`, how many upstream API calls were made and how many INSERT
statements were executed. -/
structure LoopState where
  db : DB
  storedIds : List Nat
  calls : Nat
  inserts : Nat
deriving DecidableEq, Repr

/-- The body of `fetch_and_store`'s loop, run for `n` remaining iterations,
`resp i` being the outcome of the `i`-th upstream call (indices from
`start`).  An `err` outcome re-raises: the loop stops at once and the `Bool`
component records that an exception escaped. -/
def runLoop (resp : Nat → FetchResult) (now : String) :
    Nat → Nat → LoopState → LoopState × Bool
  | _, 0, s => (s, false)
  | start, n + 1, s =>
    match resp start with
    | .err => ({ s with calls := s.calls + 1 }, true)
    | .ok j =>
      let p := insertJoke s.db j now
      runLoop resp now (start + 1) n
        { db := p.1
          storedIds := s.storedIds ++ p.2.toList
          calls := s.calls + 1
          inserts := s.inserts + 1 }

/-- Case-insensitive comparison on ASCII letters, as SQLite's default `LIKE`
collation folds `A`-`Z` to `a`-`z`. -/
def charLikeEq (a b : Char) : Bool :=
  let lower : Char → Char := fun c =>
    if 'A' ≤ c && c ≤ 'Z' then Char.ofNat (c.toNat + 32) else c
  lower a == lower b

/-- SQLite `LIKE` pattern matching (no ESCAPE clause): `%` matches any
sequence, `_` any single character, letters ASCII-case-insensitively.
Structured with explicit fuel to stay structurally recursive; every
recursive step shortens `pattern.length + text.length`, so
`pattern.length + text.length + 1` fuel never runs out. -/
def sqlLikeFuel : Nat → List Char → List Char → Bool
  | 0, _, _ => false
  | fuel + 1, pattern, text =>
    match pattern, text with
    | [], [] => true
    | [], _ :: _ => false
    | '%' :: ps, [] => sqlLikeFuel fuel ps []
    | '%' :: ps, c :: s => sqlLikeFuel fuel ps (c :: s) || sqlLikeFuel fuel ('%' :: ps) s
    | '_' :: _, [] => false
    | '_' :: ps, _ :: s => sqlLikeFuel fuel ps s
    | _ :: _, [] => false
    | p :: ps, c :: s => charLikeEq p c && sqlLikeFuel fuel ps s

/-- SQLite `column LIKE pattern`. -/
def sqlLike (pattern text : String) : Bool :=
  sqlLikeFuel (pattern.data.length + text.data.length + 1) pattern.data text.data

/-- The `WHERE setup LIKE ? OR punchline LIKE ?` filter of `list_jokes`, with
parameter `f"%{q}%"`.  `if q:` is Python-falsy: a missing or empty `q`
applies no filter. -/
def rowMatches (q : Option String) (r : JokeRow) : Bool :=
  match q with
  | none => true
  | some s =>
    if s = "" then true
    else sqlLike ("%" ++ s ++ "%") r.setup || sqlLike ("%" ++ s ++ "%") r.punchline

/-- Insert a row into a list kept in descending-id order (`ORDER BY id DESC`). -/
def insertByIdDesc (r : JokeRow) : List JokeRow → List JokeRow
  | [] => [r]
  | x :: xs => if x.id ≤ r.id then r :: x :: xs else x :: insertByIdDesc r xs

/-- `ORDER BY id DESC` over a set of selected rows. -/
def sortByIdDesc (l : List JokeRow) : List JokeRow :=
  l.foldr insertByIdDesc []

/-- A `JokeList` response body: `items`, `total`, `limit`, `offset`. -/
structure JokeList where
  items : List JokeRow
  total : Nat
  limit : Nat
  offset : Nat
deriving DecidableEq, Repr

/-- How a handler terminates abnormally: a raised `HTTPException` with a
status code, or an exception nobody catches (the framework's default error
response). -/
inductive ApiError where
  | http (status : Nat)
  | unhandled
deriving DecidableEq, Repr

/-- What a call to `fetch_and_store` leaves behind: the table after commit or
rollback, the number of upstream API calls and of executed INSERT
statements, and the response (an `ApiError.unhandled` when the upstream
fetch raised). -/
structure FetchOutcome where
  db : DB
  calls : Nat
  inserts : Nat
  response : Except ApiError JokeList
deriving Repr

/-- The final SELECT of `fetch_and_store`: the rows just inserted
(`WHERE id IN (stored_ids) ORDER BY id DESC`) when any, else the latest
`count` rows overall; the response reports `total = limit = len(items)`,
`offset = 0`. -/
def buildFetchResponse (db : DB) (storedIds : List Nat) (count : Nat) : JokeList :=
  let rows :=
    if storedIds.isEmpty then (sortByIdDesc db).take count
    else sortByIdDesc (db.filter fun r => storedIds.contains r.id)
  { items := rows, total := rows.length, limit := rows.length, offset := 0 }

/-- `fetch_and_store` (the handler body after auth): run the loop `count`
times inside `with connect() as conn:`.  On normal completion the context
manager commits (the loop also calls `conn.commit()` explicitly); if the
upstream fetch raises, the exception escapes the `with` block, which rolls
the open transaction back, so the table is exactly the input table. -/
def fetch_and_store (db0 : DB) (count : Nat) (resp : Nat → FetchResult)
    (now : String) : FetchOutcome :=
  let r := runLoop resp now 0 count ⟨db0, [], 0, 0⟩
  if r.2 then
    { db := db0, calls := r.1.calls, inserts := r.1.inserts, response := .error .unhandled }
  else
    { db := r.1.db, calls := r.1.calls, inserts := r.1.inserts
      response := .ok (buildFetchResponse r.1.db r.1.storedIds count) }

/-- `list_jokes` (the handler body after auth): count all matching rows for
`total`, then return the page
`ORDER BY id DESC LIMIT limit OFFSET offset`, echoing `limit` and `offset`.
The handler only SELECTs, so the table comes back unchanged. -/
def list_jokes (db : DB) (limit offset : Nat) (q : Option String) : DB × JokeList :=
  let matched := db.filter (rowMatches q)
  let rows := ((sortByIdDesc matched).drop offset).take limit
  (db, { items := rows, total := matched.length, limit := limit, offset := offset })

/-- `get_joke` (the handler body after auth): `SELECT ... WHERE id = ?`,
`fetchone`; 404 when no row comes back, else the row.  Read-only. -/
def get_joke (db : DB) (joke_id : Int) : DB × Except ApiError JokeRow :=
  (db,
    match db.find? (fun r => (r.id : Int) == joke_id) with
    | some r => .ok r
    | none => .error (.http 404))

/-- `DEMO_USERS.get`: the one demo user `admin`/`admin`. -/
def DEMO_USERS_get (u : String) : Option String :=
  if u = "admin" then some "admin" else none

/-- The in-memory token store `TOKENS : token -> username`, as an association
list where a fresh binding is consed on (later bindings shadow earlier
ones, like dict assignment). -/
abbrev Tokens := List (String × String)

/-- `get_current_user`: look the bearer token up in `TOKENS`; `if not user:`
(missing token, or a Python-falsy empty username) raises 401, else the
username is returned. -/
def get_current_user (tokens : Tokens) (token : String) : Except Nat String :=
  match tokens.lookup token with
  | some u => if u = "" then .error 401 else .ok u
  | none => .error 401

/-- `issue_token` (`POST /auth/token`): 400 unless
`DEMO_USERS.get(form.username) == form.password` (a missing user gives
`None`, never equal to the string password); on success store
`TOKENS[token] = username` for a fresh token and return it.  The fresh
token produced by `secrets.token_urlsafe(32)` is passed in as `newToken`. -/
def issue_token (tokens : Tokens) (username password newToken : String) :
    Except Nat Tokens :=
  if DEMO_USERS_get username == some password then
    .ok ((newToken, username) :: tokens)
  else .error 400

/-- Token stores the running program can actually hold: `TOKENS` starts empty
and only successful `issue_token` calls write to it. -/
inductive TokensReachable : Tokens → Prop
  | nil : TokensReachable []
  | issue (ts : Tokens) (u p tok : String) (ts' : Tokens) :
      TokensReachable ts → issue_token ts u p tok = .ok ts' → TokensReachable ts'

/-- `POST /jokes/fetch` with the `Depends(get_current_user)` guard: an auth
failure raises before the handler body runs. -/
def fetch_endpoint (tokens : Tokens) (token : String) (db0 : DB) (count : Nat)
    (resp : Nat → FetchResult) (now : String) : DB × Except ApiError JokeList :=
  match get_current_user tokens token with
  | .error c => (db0, .error (.http c))
  | .ok _ =>
    let o := fetch_and_store db0 count resp now
    (o.db, o.response)

/-- `GET /jokes` with the auth guard. -/
def list_endpoint (tokens : Tokens) (token : String) (db : DB)
    (limit offset : Nat) (q : Option String) : DB × Except ApiError JokeList :=
  match get_current_user tokens token with
  | .error c => (db, .error (.http c))
  | .ok _ =>
    let o := list_jokes db limit offset q
    (o.1, .ok o.2)

/-- `GET /jokes/{joke_id}` with the auth guard. -/
def get_endpoint (tokens : Tokens) (token : String) (db : DB) (joke_id : Int) :
    DB × Except ApiError JokeRow :=
  match get_current_user tokens token with
  | .error c => (db, .error (.http c))
  | .ok _ => get_joke db joke_id

/-- Database states the joke service can reach: `init_db` creates an empty
`jokes` table, and `fetch_and_store` (with its `Query(..., ge=1, le=20)`
bound on `count`) is the only writer. -/
inductive Reachable : DB → Prop
  | init : Reachable []
  | step (db : DB) (count : Nat) (resp : Nat → FetchResult) (now : String) :
      Reachable db → 1 ≤ count → count ≤ 20 →
      Reachable (fetch_and_store db count resp now).db

/-- Modelled from the spec: the second HTTP service ("returns the current
time in a fixed timezone behind a static shared-secret header check") has no
source under `src/`; only the spec's purpose sentence describes it.  Its
configuration is the static shared secret and the fixed timezone, the
latter as a UTC offset in minutes. -/
structure TimeServiceConfig where
  sharedSecret : String
  tzOffsetMinutes : Int
deriving DecidableEq, Repr

/-- Modelled from the spec: the time endpoint compares the request's secret
header against the static shared secret; on a match it returns the current
time shifted into the fixed timezone, and otherwise rejects the request
(modelled as a 401). -/
def time_endpoint (cfg : TimeServiceConfig) (header : Option String)
    (utcNowMinutes : Int) : Except Nat Int :=
  if header == some cfg.sharedSecret then .ok (utcNowMinutes + cfg.tzOffsetMinutes)
  else .error 401

/-- Plain case-sensitive substring test on character lists.  This follows the
SPEC's wording for the `q` filter ("search in setup/punchline" read as
substring), for comparison with the code's `LIKE`-based `rowMatches`. -/
def specSubstring : List Char → List Char → Bool
  | needle, [] => needle.isEmpty
  | needle, c :: rest => needle.isPrefixOf (c :: rest) || specSubstring needle rest

/-- The `q` filter as the spec's words describe it: `q` is a plain substring
of `setup` or of `punchline` (all rows match when `q` is absent). -/
def specSubstringMatches (q : Option String) (r : JokeRow) : Bool :=
  match q with
  | none => true
  | some s => specSubstring s.data r.setup.data || specSubstring s.data r.punchline.data

/-- `ORDER BY id DESC`: every element is ≥ (by id) all later ones. -/
def SortedDesc (l : List JokeRow) : Prop :=
  l.Pairwise fun a b => b.id ≤ a.id

/-- Column-level uniqueness as SQL enforces it for `external_id INTEGER
UNIQUE`: no two rows share the same non-NULL `external_id` (NULLs never
conflict). -/
def UniqueNonNullExt (db : DB) : Prop :=
  db.Pairwise fun a b => ∀ e : Int, a.external_id = some e → b.external_id ≠ some e

lemma insertByIdDesc_perm (r : JokeRow) (l : List JokeRow) :
    List.Perm (insertByIdDesc r l) (r :: l) := by
  induction l with
  | nil => rfl
  | cons x xs ih =>
    simp only [insertByIdDesc]
    split
    · exact List.Perm.refl _
    · exact (ih.cons x).trans (List.Perm.swap r x xs)

lemma sortByIdDesc_perm (l : List JokeRow) : List.Perm (sortByIdDesc l) l := by
  induction l with
  | nil => rfl
  | cons x xs ih =>
    exact (insertByIdDesc_perm x (sortByIdDesc xs)).trans (ih.cons x)

lemma mem_insertByIdDesc {a r : JokeRow} {l : List JokeRow} :
    a ∈ insertByIdDesc r l ↔ a = r ∨ a ∈ l := by
  rw [(insertByIdDesc_perm r l).mem_iff, List.mem_cons]

lemma sortedDesc_insertByIdDesc (r : JokeRow) (l : List JokeRow)
    (h : SortedDesc l) : SortedDesc (insertByIdDesc r l) := by
  induction l with
  | nil => simp [insertByIdDesc, SortedDesc]
  | cons x xs ih =>
    rcases h with - | ⟨h1, h2⟩
    simp only [insertByIdDesc]
    split
    · rename_i hle
      refine List.Pairwise.cons ?_ (List.Pairwise.cons h1 h2)
      intro b hb
      rcases List.mem_cons.mp hb with rfl | hb
      · exact hle
      · exact le_trans (h1 b hb) hle
    · rename_i hgt
      refine List.Pairwise.cons ?_ (ih h2)
      intro b hb
      rcases mem_insertByIdDesc.mp hb with rfl | hb
      · exact Nat.le_of_lt (Nat.lt_of_not_le hgt)
      · exact h1 b hb

lemma sortedDesc_sortByIdDesc (l : List JokeRow) : SortedDesc (sortByIdDesc l) := by
  induction l with
  | nil => exact List.Pairwise.nil
  | cons x xs ih => exact sortedDesc_insertByIdDesc x (sortByIdDesc xs) ih

/-- The row `insertJoke` would append for payload `j` at table state `db`. -/
def rowOf (db : DB) (j : FetchedJoke) (now : String) : JokeRow :=
  { id := freshId db
    external_id := j.id
    type := j.type
    setup := j.setup.getD ""
    punchline := j.punchline.getD ""
    created_at := now }

lemma insertJoke_none (db : DB) (j : FetchedJoke) (now : String) (hj : j.id = none) :
    insertJoke db j now = (db ++ [rowOf db j now], some (freshId db)) := by
  simp [insertJoke, rowOf, hj]

lemma insertJoke_dup (db : DB) (j : FetchedJoke) (now : String) (e : Int)
    (hj : j.id = some e) (he : hasExtId db e = true) :
    insertJoke db j now = (db, none) := by
  simp [insertJoke, hj, he]

lemma insertJoke_fresh (db : DB) (j : FetchedJoke) (now : String) (e : Int)
    (hj : j.id = some e) (he : hasExtId db e = false) :
    insertJoke db j now = (db ++ [rowOf db j now], some (freshId db)) := by
  simp [insertJoke, rowOf, hj, he]

lemma insertJoke_extends (db : DB) (j : FetchedJoke) (now : String) :
    ∃ l, (insertJoke db j now).1 = db ++ l ∧ l.length ≤ 1 := by
  rcases hj : j.id with - | e
  · exact ⟨[rowOf db j now], by rw [insertJoke_none db j now hj], by simp⟩
  · rcases he : hasExtId db e with - | -
    · exact ⟨[rowOf db j now], by rw [insertJoke_fresh db j now e hj he], by simp⟩
    · exact ⟨[], by rw [insertJoke_dup db j now e hj he]; simp, by simp⟩

lemma runLoop_extends (resp : Nat → FetchResult) (now : String) :
    ∀ (n start : Nat) (s : LoopState), ∃ added,
      (runLoop resp now start n s).1.db = s.db ++ added ∧ added.length ≤ n := by
  intro n
  induction n with
  | zero => exact fun start s => ⟨[], by simp [runLoop], by simp⟩
  | succ n ih =>
    intro start s
    rcases hr : resp start with j | -
    · obtain ⟨l, hl, hlen⟩ := insertJoke_extends s.db j now
      obtain ⟨added, ha, halen⟩ := ih (start + 1)
        { db := (insertJoke s.db j now).1
          storedIds := s.storedIds ++ (insertJoke s.db j now).2.toList
          calls := s.calls + 1
          inserts := s.inserts + 1 }
      refine ⟨l ++ added, ?_, ?_⟩
      · simp only [runLoop, hr]
        rw [ha]
        simp [hl, List.append_assoc]
      · simp only [List.length_append]
        omega
    · exact ⟨[], by simp [runLoop, hr], by simp⟩

lemma runLoop_ok (resp : Nat → FetchResult) (now : String) :
    ∀ (n start : Nat) (s : LoopState),
      (∀ i, i < n → resp (start + i) ≠ .err) →
      (runLoop resp now start n s).2 = false ∧
      (runLoop resp now start n s).1.calls = s.calls + n ∧
      (runLoop resp now start n s).1.inserts = s.inserts + n := by
  intro n
  induction n with
  | zero => exact fun start s _ => ⟨rfl, rfl, rfl⟩
  | succ n ih =>
    intro start s hok
    rcases hr : resp start with j | -
    · have := ih (start + 1)
        { db := (insertJoke s.db j now).1
          storedIds := s.storedIds ++ (insertJoke s.db j now).2.toList
          calls := s.calls + 1
          inserts := s.inserts + 1 }
        (fun i hi => by
          have := hok (i + 1) (by omega)
          simpa [Nat.add_assoc, Nat.add_comm 1 i] using this)
      simp only [runLoop, hr]
      refine ⟨this.1, ?_, ?_⟩
      · rw [this.2.1]
        show s.calls + 1 + n = s.calls + (n + 1)
        omega
      · rw [this.2.2]
        show s.inserts + 1 + n = s.inserts + (n + 1)
        omega
    · exact absurd hr (by simpa using hok 0 (by omega))

lemma runLoop_err (resp : Nat → FetchResult) (now : String) :
    ∀ (k n start : Nat) (s : LoopState), k < n → resp (start + k) = .err →
      (∀ i, i < k → resp (start + i) ≠ .err) →
      (runLoop resp now start n s).2 = true ∧
      (runLoop resp now start n s).1.calls = s.calls + (k + 1) := by
  intro k
  induction k with
  | zero =>
    intro n start s hk herr _
    obtain ⟨m, rfl⟩ : ∃ m, n = m + 1 := ⟨n - 1, by omega⟩
    rw [Nat.add_zero] at herr
    exact ⟨by simp [runLoop, herr], by simp [runLoop, herr]⟩
  | succ k ih =>
    intro n start s hk herr hpre
    obtain ⟨m, rfl⟩ : ∃ m, n = m + 1 := ⟨n - 1, by omega⟩
    rcases hr : resp start with j | -
    · have := ih m (start + 1)
        { db := (insertJoke s.db j now).1
          storedIds := s.storedIds ++ (insertJoke s.db j now).2.toList
          calls := s.calls + 1
          inserts := s.inserts + 1 }
        (by omega)
        (by rw [show start + 1 + k = start + (k + 1) by omega]; exact herr)
        (fun i hi => by
          have := hpre (i + 1) (by omega)
          simpa [Nat.add_assoc, Nat.add_comm 1 i] using this)
      simp only [runLoop, hr]
      refine ⟨this.1, ?_⟩
      rw [this.2]
      show s.calls + 1 + (k + 1) = s.calls + (k + 1 + 1)
      omega
    · exact absurd hr (by simpa using hpre 0 (by omega))

lemma not_hasExtId (db : DB) (e : Int) (he : hasExtId db e = false) :
    ∀ r ∈ db, r.external_id ≠ some e := by
  intro r hr hre
  rw [hasExtId, List.any_eq_false] at he
  exact he r hr (by simp [hre])

lemma insertJoke_unique (db : DB) (j : FetchedJoke) (now : String)
    (h : UniqueNonNullExt db) : UniqueNonNullExt (insertJoke db j now).1 := by
  rcases hj : j.id with - | e
  · rw [insertJoke_none db j now hj]
    simp only [UniqueNonNullExt] at h ⊢
    rw [List.pairwise_append]
    refine ⟨h, by simp, ?_⟩
    intro a _ b hb
    simp only [List.mem_singleton] at hb
    subst hb
    simp [rowOf, hj]
  · rcases he : hasExtId db e with - | -
    · rw [insertJoke_fresh db j now e hj he]
      simp only [UniqueNonNullExt] at h ⊢
      rw [List.pairwise_append]
      refine ⟨h, by simp, ?_⟩
      intro a ha b hb
      simp only [List.mem_singleton] at hb
      subst hb
      intro x hax
      simp only [rowOf, hj, Option.some.injEq]
      intro hxe
      exact not_hasExtId db e he a ha (hxe ▸ hax)
    · rw [insertJoke_dup db j now e hj he]
      exact h

lemma runLoop_unique (resp : Nat → FetchResult) (now : String) :
    ∀ (n start : Nat) (s : LoopState), UniqueNonNullExt s.db →
      UniqueNonNullExt (runLoop resp now start n s).1.db := by
  intro n
  induction n with
  | zero => exact fun start s h => h
  | succ n ih =>
    intro start s h
    rcases hr : resp start with j | -
    · simp only [runLoop, hr]
      exact ih (start + 1) _ (insertJoke_unique s.db j now h)
    · simpa [runLoop, hr] using h

lemma fetch_and_store_unique (db : DB) (count : Nat) (resp : Nat → FetchResult)
    (now : String) (h : UniqueNonNullExt db) :
    UniqueNonNullExt (fetch_and_store db count resp now).db := by
  simp only [fetch_and_store]
  split
  · exact h
  · exact runLoop_unique resp now count 0 ⟨db, [], 0, 0⟩ h

lemma reachable_unique {db : DB} (h : Reachable db) : UniqueNonNullExt db := by
  induction h with
  | init => exact List.Pairwise.nil
  | step db count resp now _ _ _ ih => exact fetch_and_store_unique db count resp now ih

lemma fetch_and_store_extends (db : DB) (count : Nat) (resp : Nat → FetchResult)
    (now : String) :
    ∃ added, (fetch_and_store db count resp now).db = db ++ added ∧
      added.length ≤ count := by
  simp only [fetch_and_store]
  split
  · exact ⟨[], by simp, by simp⟩
  · exact runLoop_extends resp now count 0 ⟨db, [], 0, 0⟩

lemma issue_token_ok {ts : Tokens} {u p tok : String} {ts' : Tokens}
    (h : issue_token ts u p tok = .ok ts') : ts' = (tok, u) :: ts ∧ u = "admin" := by
  unfold issue_token at h
  split at h
  · rename_i hcond
    refine ⟨(Except.ok.inj h).symm, ?_⟩
    by_cases hu : u = "admin"
    · exact hu
    · rw [DEMO_USERS_get, if_neg hu] at hcond
      simp at hcond
  · cases h

lemma tokensReachable_lookup {ts : Tokens} (h : TokensReachable ts) :
    ∀ tok u : String, ts.lookup tok = some u → u = "admin" := by
  induction h with
  | nil => intro tok u hl; simp [List.lookup] at hl
  | issue ts u p tok ts' hre heq ih =>
    intro tok' u' hl
    obtain ⟨hts, hadmin⟩ := issue_token_ok heq
    subst hts
    simp only [List.lookup] at hl
    split at hl
    · exact (Option.some.injEq _ _).mp hl ▸ hadmin
    · exact ih tok' u' hl

/-- A payload with no `id` field: its `external_id` is stored as SQL `NULL`. -/
def c1joke : FetchedJoke := ⟨none, some "general", some "s", some "p"⟩

/-- Two upstream calls, both returning an id-less payload. -/
def c1resp : Nat → FetchResult := fun _ => .ok c1joke

/-- The table after `fetch_and_store` runs on an empty table with `count = 2`
against `c1resp`. -/
def c1db : DB := (fetch_and_store [] 2 c1resp "t0").db

/-- Claim C1, as stated, is false: the reachable state `c1db` holds two
distinct joke rows with the same `external_id` (both `NULL`), because
SQLite's `UNIQUE` never treats two `NULL`s as a conflict, so `INSERT OR
IGNORE` inserts every id-less joke. -/
theorem c1_counterexample :
    Reachable c1db ∧
    c1db = [⟨1, none, some "general", "s", "p", "t0"⟩,
            ⟨2, none, some "general", "s", "p", "t0"⟩] ∧
    ¬ c1db.Pairwise (fun a b => a.external_id ≠ b.external_id) := by
  refine ⟨Reachable.step [] 2 c1resp "t0" Reachable.init (by decide) (by decide),
    by decide, ?_⟩
  intro hp
  rw [show c1db = [⟨1, none, some "general", "s", "p", "t0"⟩,
      ⟨2, none, some "general", "s", "p", "t0"⟩] by decide] at hp
  rcases hp with - | ⟨h1, -⟩
  exact h1 _ (List.mem_singleton_self _) rfl

/-- Claim C1 (amended): stored jokes are deduplicated by non-NULL external
id.  In every reachable state no two rows share the same non-NULL
`external_id`, and when `fetch_and_store` receives a joke whose non-NULL
`external_id` is already in the table, the `INSERT OR IGNORE` is ignored
and the table is left unchanged. -/
theorem c1_dedup_nonnull :
    (∀ db : DB, Reachable db → UniqueNonNullExt db) ∧
    (∀ (db : DB) (j : FetchedJoke) (now : String) (e : Int),
      j.id = some e → hasExtId db e = true →
      insertJoke db j now = (db, none) ∧
      (fetch_and_store db 1 (fun _ => FetchResult.ok j) now).db = db) := by
  refine ⟨fun db h => reachable_unique h, ?_⟩
  intro db j now e hj he
  refine ⟨insertJoke_dup db j now e hj he, ?_⟩
  have h1 : runLoop (fun _ => FetchResult.ok j) now 0 1 ⟨db, [], 0, 0⟩
      = (⟨db, [], 1, 1⟩, false) := by
    simp [runLoop, insertJoke_dup db j now e hj he]
  simp [fetch_and_store, h1]

/-- A table already holding external id 7, and a payload carrying id 7. -/
def c1wdb : DB := [⟨1, some 7, none, "s", "p", "t"⟩]

/-- Claim C1 witness: the amended theorem applied at the empty reachable
state and at a concrete duplicate insert. -/
theorem c1_dedup_nonnull_witness :
    UniqueNonNullExt [] ∧
    insertJoke c1wdb ⟨some 7, none, none, none⟩ "t" = (c1wdb, none) := by
  exact ⟨c1_dedup_nonnull.1 [] Reachable.init,
    (c1_dedup_nonnull.2 c1wdb ⟨some 7, none, none, none⟩ "t" 7 rfl (by decide)).1⟩

/-- Claim C2: a request to any protected endpoint whose bearer token is not
in the token store fails with 401 and leaves the table untouched (the
handler body never runs); a token that is in the (reachable) store
proceeds as the username it maps to. -/
theorem c2_auth_gate :
    (∀ (tokens : Tokens) (token : String) (db : DB) (count : Nat)
        (resp : Nat → FetchResult) (now : String),
      tokens.lookup token = none →
      fetch_endpoint tokens token db count resp now = (db, .error (.http 401))) ∧
    (∀ (tokens : Tokens) (token : String) (db : DB) (limit offset : Nat)
        (q : Option String),
      tokens.lookup token = none →
      list_endpoint tokens token db limit offset q = (db, .error (.http 401))) ∧
    (∀ (tokens : Tokens) (token : String) (db : DB) (jid : Int),
      tokens.lookup token = none →
      get_endpoint tokens token db jid = (db, .error (.http 401))) ∧
    (∀ tokens : Tokens, TokensReachable tokens →
      ∀ token u : String, tokens.lookup token = some u →
      get_current_user tokens token = .ok u) := by
  refine ⟨?_, ?_, ?_, ?_⟩
  · intro tokens token db count resp now hl
    simp [fetch_endpoint, get_current_user, hl]
  · intro tokens token db limit offset q hl
    simp [list_endpoint, get_current_user, hl]
  · intro tokens token db jid hl
    simp [get_endpoint, get_current_user, hl]
  · intro tokens hre token u hl
    have hadmin := tokensReachable_lookup hre token u hl
    simp [get_current_user, hl, hadmin]

/-- Claim C2 witness: concrete rejected requests on an empty store, and a
concrete accepted request on a store issued by `issue_token`. -/
theorem c2_auth_gate_witness :
    fetch_endpoint [] "tk" [] 1 (fun _ => FetchResult.err) "t" = ([], .error (.http 401)) ∧
    list_endpoint [] "tk" [] 20 0 none = ([], .error (.http 401)) ∧
    get_endpoint [] "tk" [] 1 = ([], .error (.http 401)) ∧
    get_current_user [("tk", "admin")] "tk" = .ok "admin" := by
  refine ⟨c2_auth_gate.1 [] "tk" [] 1 _ "t" rfl,
    c2_auth_gate.2.1 [] "tk" [] 20 0 none rfl,
    c2_auth_gate.2.2.1 [] "tk" [] 1 rfl,
    c2_auth_gate.2.2.2 [("tk", "admin")]
      (TokensReachable.issue [] "admin" "admin" "tk" [("tk", "admin")]
        TokensReachable.nil (by simp [issue_token, DEMO_USERS_get]))
      "tk" "admin" (by simp [List.lookup])⟩

/-- Claim C10: a token returned by a successful `/auth/token` call validates
back to the username it was issued for, and `/auth/token` answers 400 to
every username/password pair other than the demo user's. -/
theorem c10_token_roundtrip :
    (∀ (ts : Tokens) (u p tok : String) (ts' : Tokens),
      issue_token ts u p tok = .ok ts' → get_current_user ts' tok = .ok u) ∧
    (∀ (ts : Tokens) (u p tok : String),
      u ≠ "admin" ∨ p ≠ "admin" → issue_token ts u p tok = .error 400) := by
  constructor
  · intro ts u p tok ts' h
    obtain ⟨hts, hadmin⟩ := issue_token_ok h
    subst hts
    subst hadmin
    simp [get_current_user, List.lookup]
  · intro ts u p tok h
    have hcond : (DEMO_USERS_get u == some p) = false := by
      rcases h with h | h
      · simp [DEMO_USERS_get, h]
      · by_cases hu : u = "admin"
        · subst hu
          simp only [DEMO_USERS_get, if_pos rfl]
          simpa using fun hc => h hc.symm
        · simp [DEMO_USERS_get, hu]
    simp [issue_token, hcond]

/-- Claim C10 witness: a concrete issued token validating back, and a
concrete wrong credential pair rejected with 400. -/
theorem c10_token_roundtrip_witness :
    get_current_user [("tok1", "admin")] "tok1" = .ok "admin" ∧
    issue_token [] "alice" "pw" "tok2" = .error 400 := by
  exact ⟨c10_token_roundtrip.1 [] "admin" "admin" "tok1" [("tok1", "admin")]
      (by simp [issue_token, DEMO_USERS_get]),
    c10_token_roundtrip.2 [] "alice" "pw" "tok2" (Or.inl (by decide))⟩

/-- Claim C3: `get_joke` answers 404 exactly when no row carries the
requested id (the hypothesis is the `PRIMARY KEY` uniqueness of `id`);
when a row with that id exists, the handler returns that row with all of
its fields unchanged. -/
theorem c3_get_joke (db : DB) (jid : Int)
    (hids : db.Pairwise fun a b => a.id ≠ b.id) :
    ((get_joke db jid).2 = .error (.http 404) ↔ ∀ r ∈ db, (r.id : Int) ≠ jid) ∧
    (∀ r ∈ db, (r.id : Int) = jid → (get_joke db jid).2 = .ok r) := by
  constructor
  · rcases hf : db.find? (fun r => (r.id : Int) == jid) with - | r
    · simp only [get_joke, hf]
      constructor
      · intro _ r hr
        have := List.find?_eq_none.mp hf r hr
        simpa using this
      · intro _
        trivial
    · simp only [get_joke, hf]
      constructor
      · intro h
        exact Except.noConfusion h
      · intro hall
        have hr : r ∈ db := List.mem_of_find?_eq_some hf
        have hp : (r.id : Int) = jid := by simpa using List.find?_some hf
        exact (hall r hr hp).elim
  · intro r hr hrid
    rcases hf : db.find? (fun x => (x.id : Int) == jid) with - | r'
    · have := List.find?_eq_none.mp hf r hr
      simp [hrid] at this
    · have hmem : r' ∈ db := List.mem_of_find?_eq_some hf
      have hp : (r'.id : Int) = jid := by simpa using List.find?_some hf
      have hrr : r' = r := by
        by_contra hne
        have hsym : Symmetric (fun a b : JokeRow => a.id ≠ b.id) :=
          fun a b hab hba => hab hba.symm
        have hne' : r'.id ≠ r.id := hids.forall hsym hmem hr hne
        apply hne'
        exact_mod_cast hp.trans hrid.symm
      subst hrr
      simp only [get_joke, hf]

/-- A one-row table for exercising `get_joke`. -/
def c3row : JokeRow := ⟨1, some 7, some "general", "s", "p", "t"⟩

/-- Claim C3 witness: on the one-row table, id 2 is 404 exactly as the iff
states, and id 1 returns the stored row. -/
theorem c3_get_joke_witness :
    ((get_joke [c3row] 2).2 = .error (.http 404) ↔ ∀ r ∈ [c3row], (r.id : Int) ≠ 2) ∧
    (get_joke [c3row] 1).2 = .ok c3row := by
  exact ⟨(c3_get_joke [c3row] 2 (by simp)).1,
    (c3_get_joke [c3row] 1 (by simp)).2 c3row (by simp) rfl⟩

/-- Claim C4 (spec-modelled; the time service has no source under `src/`):
with the correct shared-secret header the service returns the current time
shifted into its fixed timezone; without it the request is rejected. -/
theorem c4_time_service (cfg : TimeServiceConfig) (header : Option String)
    (nowUtc : Int) :
    (header = some cfg.sharedSecret →
      time_endpoint cfg header nowUtc = .ok (nowUtc + cfg.tzOffsetMinutes)) ∧
    (header ≠ some cfg.sharedSecret →
      time_endpoint cfg header nowUtc = .error 401) := by
  constructor
  · intro h
    simp [time_endpoint, h]
  · intro h
    simp [time_endpoint, h]

/-- Claim C4 witness: a concrete accepted and a concrete rejected request. -/
theorem c4_time_service_witness :
    time_endpoint ⟨"s3cret", 120⟩ (some "s3cret") 30 = .ok (30 + 120) ∧
    time_endpoint ⟨"s3cret", 120⟩ none 30 = .error 401 := by
  exact ⟨(c4_time_service ⟨"s3cret", 120⟩ (some "s3cret") 30).1 rfl,
    (c4_time_service ⟨"s3cret", 120⟩ none 30).2 (by simp)⟩

/-- Claim C5: joke rows are insert-once/read-many.  `fetch_and_store` only
appends (every pre-existing row survives with all fields unchanged), and
`list_jokes` and `get_joke` leave the table exactly as it was. -/
theorem c5_insert_once_read_many :
    (∀ (db : DB) (count : Nat) (resp : Nat → FetchResult) (now : String),
      ∃ added, (fetch_and_store db count resp now).db = db ++ added) ∧
    (∀ (db : DB) (limit offset : Nat) (q : Option String),
      (list_jokes db limit offset q).1 = db) ∧
    (∀ (db : DB) (jid : Int), (get_joke db jid).1 = db) := by
  refine ⟨fun db count resp now => ?_, fun _ _ _ _ => rfl, fun _ _ => rfl⟩
  obtain ⟨added, h, -⟩ := fetch_and_store_extends db count resp now
  exact ⟨added, h⟩

/-- Claim C6: when every upstream call succeeds and `count` is within its
`Query` bounds, `fetch_and_store` makes exactly `count` API calls and runs
exactly one `INSERT OR IGNORE` per response, appending at most `count` new
rows and writing nothing else. -/
theorem c6_fetch_loop (db : DB) (count : Nat) (resp : Nat → FetchResult)
    (now : String) (h1 : 1 ≤ count) (h2 : count ≤ 20)
    (hok : ∀ i, i < count → resp i ≠ .err) :
    (fetch_and_store db count resp now).calls = count ∧
    (fetch_and_store db count resp now).inserts = count ∧
    ∃ added, (fetch_and_store db count resp now).db = db ++ added ∧
      added.length ≤ count := by
  have hrun := runLoop_ok resp now count 0 ⟨db, [], 0, 0⟩
    (fun i hi => by simpa using hok i hi)
  have hfail : (runLoop resp now 0 count ⟨db, [], 0, 0⟩).2 = false := hrun.1
  refine ⟨?_, ?_, ?_⟩
  · simp [fetch_and_store, hfail, hrun.2.1]
  · simp [fetch_and_store, hfail, hrun.2.2]
  · obtain ⟨added, ha, hlen⟩ := runLoop_extends resp now count 0 ⟨db, [], 0, 0⟩
    exact ⟨added, by simpa [fetch_and_store, hfail] using ha, hlen⟩

/-- A payload with external id 5, for the success-path witnesses. -/
def c6joke : FetchedJoke := ⟨some 5, some "general", some "a", some "b"⟩

/-- Claim C6 witness: two successful upstream calls mean two API calls, two
INSERT statements, and at most two appended rows. -/
theorem c6_fetch_loop_witness :
    (fetch_and_store [] 2 (fun _ => FetchResult.ok c6joke) "t").calls = 2 ∧
    (fetch_and_store [] 2 (fun _ => FetchResult.ok c6joke) "t").inserts = 2 ∧
    ∃ added, (fetch_and_store [] 2 (fun _ => FetchResult.ok c6joke) "t").db
      = [] ++ added ∧ added.length ≤ 2 := by
  exact c6_fetch_loop [] 2 (fun _ => FetchResult.ok c6joke) "t" (by decide) (by decide)
    (fun i _ => by simp)

/-- Claim C7: when the `k`-th upstream call fails, `fetch_and_store`
propagates the exception unhandled — the response is the framework's
default error, no further upstream call is made (no retry), and nothing
catches it. -/
theorem c7_upstream_propagates (db : DB) (count : Nat) (resp : Nat → FetchResult)
    (now : String) (k : Nat) (hk : k < count) (herr : resp k = .err)
    (hpre : ∀ i, i < k → resp i ≠ .err) :
    (fetch_and_store db count resp now).response = .error .unhandled ∧
    (fetch_and_store db count resp now).calls = k + 1 := by
  have hrun := runLoop_err resp now k count 0 ⟨db, [], 0, 0⟩ hk
    (by simpa using herr) (fun i hi => by simpa using hpre i hi)
  constructor
  · simp [fetch_and_store, hrun.1]
  · simp [fetch_and_store, hrun.1, hrun.2]

/-- The second upstream call fails; the first succeeds. -/
def c78resp : Nat → FetchResult := fun i => if i = 1 then .err else .ok c6joke

/-- Claim C7 witness: with a failure on the second of three calls, the
response is the unhandled error and exactly two calls were made. -/
theorem c7_upstream_propagates_witness :
    (fetch_and_store [] 3 c78resp "t").response = .error .unhandled ∧
    (fetch_and_store [] 3 c78resp "t").calls = 1 + 1 := by
  exact c7_upstream_propagates [] 3 c78resp "t" 1 (by decide) (by decide)
    (fun i hi => by
      have : i = 0 := by omega
      subst this
      decide)

/-- Claim C8: `fetch_and_store` is atomic with respect to upstream failure —
if the fetch raises partway through the loop, the open transaction is
rolled back by the `with connect()` context manager and the table is
exactly as it was before the request. -/
theorem c8_rollback_on_failure (db : DB) (count : Nat) (resp : Nat → FetchResult)
    (now : String) (k : Nat) (hk : k < count) (herr : resp k = .err)
    (hpre : ∀ i, i < k → resp i ≠ .err) :
    (fetch_and_store db count resp now).db = db := by
  have hrun := runLoop_err resp now k count 0 ⟨db, [], 0, 0⟩ hk
    (by simpa using herr) (fun i hi => by simpa using hpre i hi)
  simp [fetch_and_store, hrun.1]

/-- Claim C8 witness: the first call inserted a fresh joke, the second call
failed, and the table still comes back empty. -/
theorem c8_rollback_on_failure_witness :
    (fetch_and_store [] 3 c78resp "t").db = [] := by
  exact c8_rollback_on_failure [] 3 c78resp "t" 1 (by decide) (by decide)
    (fun i hi => by
      have : i = 0 := by omega
      subst this
      decide)

/-- A row whose setup is upper-case `ABC`. -/
def c9row : JokeRow := ⟨1, some 1, some "general", "ABC", "zzz", "t"⟩

/-- Claim C9, as stated, is false on the `q` filter: `list_jokes` with
`q = "abc"` returns the row whose setup is `"ABC"` (SQLite `LIKE` is
ASCII-case-insensitive), although `"abc"` is not a substring of `"ABC"`
or of `"zzz"`. -/
theorem c9_substring_counterexample :
    (list_jokes [c9row] 20 0 (some "abc")).2.items = [c9row] ∧
    specSubstringMatches (some "abc") c9row = false := by
  exact ⟨by decide, by decide⟩

/-- Claim C9 (amended): for `limit` in its `Query` bounds, `list_jokes`
returns the rows matching the `q` filter — SQL `LIKE '%q%'` on setup or
punchline, ASCII-case-insensitive with `%`/`_` in `q` acting as wildcards;
all rows when `q` is absent or empty — ordered by id descending, skipping
`offset` rows and returning at most `limit` rows, while `total` counts all
matching rows and the response echoes `limit` and `offset`. -/
theorem c9_list_jokes_paging (db : DB) (limit offset : Nat) (q : Option String)
    (h1 : 1 ≤ limit) (h2 : limit ≤ 100) :
    (list_jokes db limit offset q).2.total = (db.filter (rowMatches q)).length ∧
    (list_jokes db limit offset q).2.limit = limit ∧
    (list_jokes db limit offset q).2.offset = offset ∧
    List.Perm (sortByIdDesc (db.filter (rowMatches q))) (db.filter (rowMatches q)) ∧
    SortedDesc (sortByIdDesc (db.filter (rowMatches q))) ∧
    (list_jokes db limit offset q).2.items =
      ((sortByIdDesc (db.filter (rowMatches q))).drop offset).take limit ∧
    (list_jokes db limit offset q).2.items.length ≤ limit := by
  refine ⟨rfl, rfl, rfl, sortByIdDesc_perm _, sortedDesc_sortByIdDesc _, rfl, ?_⟩
  simp only [list_jokes]
  exact List.length_take_le _ _

/-- A two-row table for the paging witness. -/
def c9wdb : DB := [⟨1, some 1, some "g", "aa", "bb", "t"⟩,
  ⟨2, some 2, some "g", "cc", "dd", "t"⟩]

/-- Claim C9 witness: the amended theorem applied at a concrete two-row
table with `limit = 1`, `offset = 0` and no `q`. -/
theorem c9_list_jokes_paging_witness :
    (list_jokes c9wdb 1 0 none).2.total = (c9wdb.filter (rowMatches none)).length ∧
    (list_jokes c9wdb 1 0 none).2.limit = 1 ∧
    (list_jokes c9wdb 1 0 none).2.offset = 0 ∧
    List.Perm (sortByIdDesc (c9wdb.filter (rowMatches none)))
      (c9wdb.filter (rowMatches none)) ∧
    SortedDesc (sortByIdDesc (c9wdb.filter (rowMatches none))) ∧
    (list_jokes c9wdb 1 0 none).2.items =
      ((sortByIdDesc (c9wdb.filter (rowMatches none))).drop 0).take 1 ∧
    (list_jokes c9wdb 1 0 none).2.items.length ≤ 1 := by
  exact c9_list_jokes_paging c9wdb 1 0 none (by decide) (by decide)

end JokeApi
